import Mathlib

/-!
Verification of the ISP (Image Signal Processing) pipeline of `src/main.py`
(classes `MetadataParser` and `ISPProcessor`, plus the `ISPParameters` /
`RawMetadata` data model).

Shallow embedding conventions:
* numpy `float32` / Python `float` values are modelled by `ℚ` (exact
  real-valued semantics; the spec's identities are claimed "up to floating
  rounding", which is exactness in this model);
* raw sensor grids (`uint16` 2-D arrays) are `List (List ℕ)`, row-major;
* floating-point image buffers are `List (List ℚ)` (one plane) or
  `List (List (ℚ × ℚ × ℚ))` (three planes, R then G then B);
* `np.clip(a, lo, hi)` is `min hi (max lo a)` pointwise, which is numpy's
  documented `minimum(hi, maximum(a, lo))`;
* `array.max()` is a fold of `max` over all entries seeded with the first
  entry (`0` for an empty buffer; numpy raises on an empty buffer, so
  theorems about `max`-dependent behaviour carry a nonemptiness hypothesis
  where it matters);
* Python exceptions that `load_raw` swallows (numpy `frombuffer` on a byte
  count that is not a multiple of 2) are modelled by the same placeholder
  fallback the `except` branch produces.
-/

/-- Models `x ** e` on floats (`np.power`). Exact whenever the exponent is an
integer, which is the only case any theorem in this file evaluates; for a
non-integer exponent the real power is irrational in general and the model
returns a junk value (`0`) that no proof below depends on. -/
def fpow (x e : ℚ) : ℚ := if e.den = 1 then x ^ e.num else 0

/-- `np.clip(v, lo, hi) = np.minimum(hi, np.maximum(v, lo))`. -/
def clipQ (v lo hi : ℚ) : ℚ := min hi (max lo v)

/-- C-style truncation toward zero, used by `astype(np.uint8)`. -/
def truncQ (q : ℚ) : ℤ := if 0 ≤ q then ⌊q⌋ else ⌈q⌉

/-- `astype(np.uint8)` on a float: truncate toward zero, keep the low 8 bits
(two's-complement wraparound, as numpy does on x86). -/
def toU8 (q : ℚ) : ℕ := ((truncQ q) % 256).toNat

/-- `l.max()` for a nonempty list; `0` for the empty list (numpy raises
there). -/
def maxD (l : List ℚ) : ℚ :=
  match l with
  | [] => 0
  | x :: xs => xs.foldl max x

/-- One-plane float image (2-D numpy array), row-major. -/
abbrev GrayQ := List (List ℚ)

/-- Three-plane float image (h × w × 3 numpy array), row-major, each pixel
`(R, G, B)`. -/
abbrev RGBQ := List (List (ℚ × ℚ × ℚ))

/-- Raw integer sensor grid (2-D `uint16` numpy array). -/
abbrev GrayN := List (List ℕ)

/-- An image buffer flowing through the pipeline: either a single plane
(stages 0–1) or three planes (stages 2–8). -/
inductive Img where
  | gray (g : GrayQ)
  | rgb (r : RGBQ)
deriving DecidableEq

/-- The displayable 8-bit image produced by `to_qimage`: grayscale bytes, or
RGBA bytes with the alpha plane set to 255. -/
inductive QImg where
  | gray8 (g : List (List ℕ))
  | rgba8 (r : List (List (ℕ × ℕ × ℕ × ℕ)))
deriving DecidableEq

/-- The `ISPParameters` dataclass of `src/main.py`, with its field defaults.
`int` fields that are dimensions/codes are `ℕ`; the signed black levels are
`ℤ`; `float` fields are `ℚ`. -/
structure ISPParameters where
  width : ℕ := 4000
  height : ℕ := 3000
  bpp : ℕ := 10
  bayer_pattern : ℕ := 0
  packed : Bool := false
  black_level_r : ℤ := 64
  black_level_gr : ℤ := 64
  black_level_gb : ℤ := 64
  black_level_b : ℤ := 64
  demosaic_method : String := "Bilinear"
  edge_threshold : ℚ := 1/10
  wb_r_gain : ℚ := 1
  wb_g_gain : ℚ := 1
  wb_b_gain : ℚ := 1
  auto_wb : Bool := false
  lsc_enabled : Bool := true
  lsc_strength : ℚ := 1
  lsc_center_x : ℚ := 1/2
  lsc_center_y : ℚ := 1/2
  gtm_enabled : Bool := true
  gtm_strength : ℚ := 1
  gtm_contrast : ℚ := 1
  lut_file : String := ""
  exposure_ev : ℚ := 0
  highlight_recovery : ℚ := 0
  shadow_recovery : ℚ := 0
  gamma_value : ℚ := 11/5
  gamma_enabled : Bool := true
  saturation : ℚ := 1
  hue_shift : ℚ := 0
  ccm_enabled : Bool := false
deriving DecidableEq

/-- The `RawMetadata` dataclass of `src/main.py`; `extra_fields` is the
open-ended key/value mapping, modelled as an association list. -/
structure RawMetadata where
  shot_meta_revision_ver : ℤ := 0
  frame_meta_ver : ℤ := 0
  frame_meta_revision_ver : ℤ := 0
  dump_time : ℤ := 0
  camera_id : String := ""
  sensor_name : String := ""
  product_name : String := ""
  device_state : ℤ := 0
  flash_status : ℤ := 0
  bpp : ℤ := 10
  packed : ℤ := 0
  bayer_type : ℤ := 0
  dynamic_shot_mode : ℤ := 0
  extra_fields : List (String × String) := []
deriving DecidableEq

/-- Does `pat` match the leading characters of `l`? (`List.isPrefixOf`.) -/
def leadMatch : List Char → List Char → Bool
  | [], _ => true
  | _ :: _, [] => false
  | a :: as, b :: bs => a == b && leadMatch as bs

/-- Does `pat` occur as a contiguous run inside `l`? -/
def subOccurs (pat : List Char) : List Char → Bool
  | [] => pat.isEmpty
  | b :: bs => leadMatch pat (b :: bs) || subOccurs pat bs

/-- Python's `needle in hay` on strings. -/
def occursIn (needle hay : String) : Bool := subOccurs needle.data hay.data

/-- The digits of a nonempty all-digit character list, as a number; `none`
otherwise. -/
def digitsVal (ds : List Char) : Option ℕ :=
  if ds.isEmpty then none
  else if ds.all (fun c => c.isDigit) then
    some (ds.foldl (fun acc c => acc * 10 + (c.toNat - 48)) 0)
  else none

/-- Python's `int(value)` on an already-stripped string: optional sign
followed by decimal digits; `none` models the `ValueError` branch. (Python
also accepts underscore digit separators and non-ASCII digits; no claim or
test input uses those.) -/
def pyInt (s : String) : Option ℤ :=
  match s.data with
  | '+' :: ds => (digitsVal ds).map (fun n => (n : ℤ))
  | '-' :: ds => (digitsVal ds).map (fun n => -(n : ℤ))
  | ds => (digitsVal ds).map (fun n => (n : ℤ))

/-- Store `key ↦ value` in the extension mapping, overwriting an existing
binding for `key` like a Python dict assignment. -/
def insertExtra (l : List (String × String)) (key value : String) :
    List (String × String) :=
  if l.any (fun kv => kv.1 == key) then
    l.map (fun kv => if kv.1 == key then (key, value) else kv)
  else l ++ [(key, value)]

/-- Shared shape of the numeric branches of `MetadataParser.parse`: parse the
value as an integer and store it with `set`; on `ValueError` store the raw
string in `extra_fields` instead (the `except ValueError` handler). -/
def setIntField (m : RawMetadata) (key value : String)
    (set : RawMetadata → ℤ → RawMetadata) : RawMetadata :=
  match pyInt value with
  | some n => set m n
  | none => { m with extra_fields := insertExtra m.extra_fields key value }

/-- The ordered substring-match branch chain in the body of
`MetadataParser.parse` (lines 358–388 of `src/main.py`), for one `key: value`
line whose key is already stripped and lower-cased. -/
def updateMeta (m : RawMetadata) (key value : String) : RawMetadata :=
  if occursIn "shotmetarevisionver" key then
    setIntField m key value (fun m n => { m with shot_meta_revision_ver := n })
  else if occursIn "framemetaver" key && !occursIn "revision" key then
    setIntField m key value (fun m n => { m with frame_meta_ver := n })
  else if occursIn "framemetarevisionver" key then
    setIntField m key value
      (fun m n => { m with frame_meta_revision_ver := n })
  else if occursIn "dump" key && occursIn "time" key then
    setIntField m key value (fun m n => { m with dump_time := n })
  else if occursIn "cameraid" key then { m with camera_id := value }
  else if occursIn "sensorname" key then { m with sensor_name := value }
  else if occursIn "productname" key then { m with product_name := value }
  else if occursIn "devicestate" key then
    setIntField m key value (fun m n => { m with device_state := n })
  else if occursIn "flashstatus" key then
    setIntField m key value (fun m n => { m with flash_status := n })
  else if occursIn "bpp" key then
    setIntField m key value (fun m n => { m with bpp := n })
  else if occursIn "packed" key then
    setIntField m key value (fun m n => { m with packed := n })
  else if occursIn "bayertype" key then
    setIntField m key value (fun m n => { m with bayer_type := n })
  else if occursIn "dynamicshotmode" key then
    setIntField m key value (fun m n => { m with dynamic_shot_mode := n })
  else { m with extra_fields := insertExtra m.extra_fields key value }

/-- The whitespace class of Python's `str.strip()`. -/
def isPySpace (c : Char) : Bool :=
  c == ' ' || c == '\t' || c == '\n' || c == '\r' || c == '\x0b' || c == '\x0c'

/-- Python's `str.strip()`. -/
def pyStrip (l : List Char) : List Char :=
  ((l.dropWhile isPySpace).reverse.dropWhile isPySpace).reverse

/-- one character of Python's `str.lower()` (ASCII; every key the parser
recognizes is ASCII). -/
def lowerChar (c : Char) : Char :=
  if c.isUpper then Char.ofNat (c.toNat + 32) else c

/-- `str.split(sep)` for a one-character separator. -/
def splitChar (sep : Char) : List Char → List (List Char)
  | [] => [[]]
  | c :: cs =>
    if c == sep then [] :: splitChar sep cs
    else
      match splitChar sep cs with
      | [] => [[c]]
      | r :: rs => (c :: r) :: rs

/-- `line.split(sep, 1)` when `sep` occurs: the part before the first `sep`
and everything after it. -/
def splitFirst (sep : Char) : List Char → List Char × List Char
  | [] => ([], [])
  | c :: cs =>
    if c == sep then ([], cs)
    else
      let kv := splitFirst sep cs
      (c :: kv.1, kv.2)

/-- Process one raw line of metadata text: strip it, skip it when empty or
colon-free, otherwise split at the first colon and dispatch on the stripped
lower-cased key and the stripped value. -/
def parseLine (m : RawMetadata) (rawLine : List Char) : RawMetadata :=
  let line := pyStrip rawLine
  if line.isEmpty then m
  else if !line.contains ':' then m
  else
    let kv := splitFirst ':' line
    updateMeta m (String.mk ((pyStrip kv.1).map lowerChar))
      (String.mk (pyStrip kv.2))

/-- `MetadataParser.parse`: `content.replace(',', '\n')` (a one-character
replacement, hence a character map) then `.split('\n')`, each line processed
in order starting from the all-defaults record. -/
def parseMetadata (content : String) : RawMetadata :=
  (splitChar '\n'
    (content.data.map (fun c => if c == ',' then '\n' else c))).foldl
    parseLine {}

/-- `ISPProcessor._create_placeholder`: the synthetic checkerboard test
pattern `((x // 100 + y // 100) % 2) * 512 + 256` (values 256 and 768, both
far below the `uint16` wrap). -/
def create_placeholder (width height : ℕ) : GrayN :=
  (List.range height).map (fun y =>
    (List.range width).map (fun x => (x / 100 + y / 100) % 2 * 512 + 256))

/-- `reshape((height, width))` of a flat sample list that holds exactly
`height * width` samples. -/
def reshapeRows (l : List ℕ) (height width : ℕ) : GrayN :=
  (List.range height).map (fun y => (l.drop (y * width)).take width)

/-- `np.frombuffer(bytes, dtype=np.uint16)`: consecutive little-endian byte
pairs. Only called on an even byte count (numpy raises otherwise, which
`load_raw` turns into the placeholder). -/
def u16LE (bytes : List ℕ) : List ℕ :=
  (List.range (bytes.length / 2)).map (fun i =>
    bytes.getD (2 * i) 0 + 256 * bytes.getD (2 * i + 1) 0)

/-- The four samples decoded from one 5-byte group by
`ISPProcessor._unpack_10bit`. -/
def quintuple (b0 b1 b2 b3 b4 : ℕ) : List ℕ :=
  [((b0 <<< 2) ||| (b4 &&& 3)) &&& 1023,
   ((b1 <<< 2) ||| ((b4 >>> 2) &&& 3)) &&& 1023,
   ((b2 <<< 2) ||| ((b4 >>> 4) &&& 3)) &&& 1023,
   ((b3 <<< 2) ||| ((b4 >>> 6) &&& 3)) &&& 1023]

/-- `ISPProcessor._unpack_10bit`. The Python loop visits
`i ∈ range(0, min(len(data) - 4, total * 5 // 4), 5)` and breaks once
`idx + 4 > total`, so it runs
`min (⌈min (len − 4) (total·5/4) / 5⌉) (total / 4)` full iterations; the
remaining output slots keep their `np.zeros` value. -/
def unpack_10bit (data : List ℕ) (width height : ℕ) : GrayN :=
  let total := width * height
  let bound := Nat.min (data.length - 4) (total * 5 / 4)
  let nGroups := Nat.min ((bound + 4) / 5) (total / 4)
  let samples := (List.range nGroups).flatMap (fun g =>
    quintuple (data.getD (5 * g) 0) (data.getD (5 * g + 1) 0)
      (data.getD (5 * g + 2) 0) (data.getD (5 * g + 3) 0)
      (data.getD (5 * g + 4) 0))
  reshapeRows (samples ++ List.replicate (total - 4 * nGroups) 0) height width

/-- `ISPProcessor.load_raw` on the raw file's bytes (the file read itself is
outside the model; an I/O failure takes the same `except` path as a decode
failure and yields the placeholder). -/
def load_raw (data : List ℕ) (p : ISPParameters) : GrayN :=
  let expected :=
    if p.packed then p.width * p.height * p.bpp / 8 else p.width * p.height * 2
  if p.packed = true ∧ p.bpp = 10 then unpack_10bit data p.width p.height
  else
    let bytes := data.take expected
    if bytes.length % 2 ≠ 0 then create_placeholder p.width p.height
    else
      let samples := u16LE bytes
      if p.width * p.height ≤ samples.length then
        reshapeRows (samples.take (p.width * p.height)) p.height p.width
      else create_placeholder p.width p.height

/-- `image.astype(np.float32)` on the raw integer grid. -/
def toQGrid (g : GrayN) : GrayQ := g.map (fun row => row.map (fun v => (v : ℚ)))

/-- `BAYER_PATTERNS.get(code, "RGGB")`, as the four channel letters of the
2×2 cell in reading order. -/
def bayerPattern (code : ℕ) : List Char :=
  match code with
  | 0 => ['R', 'G', 'G', 'B']
  | 1 => ['G', 'R', 'B', 'G']
  | 2 => ['G', 'B', 'R', 'G']
  | 3 => ['B', 'G', 'G', 'R']
  | _ => ['R', 'G', 'G', 'B']

/-- `pattern[y * 2 + x]` for the cell offsets `y, x ∈ {0, 1}`. -/
def bayerChar (code pos : ℕ) : Char := (bayerPattern code).getD pos 'R'

/-- The black level `apply_black_level` subtracts at cell offset
`(yy, xx)`: `R`/`B` use their channel's level, green uses `gr` in the
`x == 1` column and `gb` otherwise (exactly the source's quirky green
selection, which ignores which green row the pattern puts where). -/
def blackLevelFor (p : ISPParameters) (yy xx : ℕ) : ℤ :=
  let c := bayerChar p.bayer_pattern (yy * 2 + xx)
  if c = 'R' then p.black_level_r
  else if c = 'B' then p.black_level_b
  else if xx = 1 then p.black_level_gr else p.black_level_gb

/-- `ISPProcessor.apply_black_level`: the strided assignments
`result[y::2, x::2] = np.maximum(0, result[y::2, x::2] - bl)` are modelled
pointwise by the parity `(y % 2, x % 2)` of each position. -/
def apply_black_level (raw : GrayN) (p : ISPParameters) : GrayQ :=
  raw.enum.map (fun yr => yr.2.enum.map (fun xv =>
    max 0 ((xv.2 : ℚ) - (blackLevelFor p (yr.1 % 2) (xv.1 % 2) : ℚ))))

/-- The scatter half of `ISPProcessor.demosaic`: each Bayer sample goes to
its own plane at its native position, the other two planes are zero there. -/
def rgbScatter (img : GrayQ) (p : ISPParameters) : RGBQ :=
  img.enum.map (fun yr => yr.2.enum.map (fun xv =>
    let c := bayerChar p.bayer_pattern (yr.1 % 2 * 2 + xv.1 % 2)
    if c = 'R' then (xv.2, 0, 0)
    else if c = 'B' then (0, 0, xv.2)
    else (0, xv.2, 0)))

/-- scipy's boundary index for `mode='reflect'` (the `generic_filter`
default), for excursions of at most one grid (all a 3×3 window needs). -/
def reflectIdx (i : ℤ) (n : ℕ) : ℕ :=
  if i < 0 then (-1 - i).toNat
  else if (n : ℤ) ≤ i then (2 * (n : ℤ) - 1 - i).toNat
  else i.toNat

/-- Read plane entry `(y, x)` with reflected boundary handling. -/
def planeGet (pl : GrayQ) (y x : ℤ) : ℚ :=
  (pl.getD (reflectIdx y pl.length) []).getD
    (reflectIdx x (pl.headD []).length) 0

/-- The 3×3 window offsets. -/
def win3 : List (ℤ × ℤ) :=
  [(-1, -1), (-1, 0), (-1, 1), (0, -1), (0, 0), (0, 1), (1, -1), (1, 0),
   (1, 1)]

/-- The `generic_filter` kernel of `demosaic`:
`np.mean(x[x > 0]) if np.any(x > 0) else 0` over the 3×3 window at
`(y, x)`. -/
def meanPos3x3 (pl : GrayQ) (y x : ℕ) : ℚ :=
  let vs := win3.map (fun d => planeGet pl ((y : ℤ) + d.1) ((x : ℤ) + d.2))
  let pos := vs.filter (fun v => decide (0 < v))
  if pos.length = 0 then 0 else pos.sum / (pos.length : ℚ)

/-- `ndimage.generic_filter(plane, kernel, size=3)`: the kernel applied at
every position of the plane. -/
def genericFilter3 (pl : GrayQ) : GrayQ :=
  pl.enum.map (fun yr => yr.2.enum.map (fun xv => meanPos3x3 pl yr.1 xv.1))

/-- One channel of the interpolation loop of `demosaic`:
`if np.any(plane == 0): plane = generic_filter(plane, kernel, size=3)`. -/
def fillChannel (pl : GrayQ) : GrayQ :=
  if pl.any (fun row => row.any (fun v => v == 0)) then genericFilter3 pl
  else pl

/-- `ISPProcessor.demosaic` (scipy available; the `except ImportError`
fallback in `process_stage` is dead code when scipy imports). -/
def demosaic (img : GrayQ) (p : ISPParameters) : RGBQ :=
  let s := rgbScatter img p
  let pr := fillChannel (s.map (fun row => row.map (fun t => t.1)))
  let pg := fillChannel (s.map (fun row => row.map (fun t => t.2.1)))
  let pb := fillChannel (s.map (fun row => row.map (fun t => t.2.2)))
  s.enum.map (fun yr => yr.2.enum.map (fun xv =>
    ((pr.getD yr.1 []).getD xv.1 0, (pg.getD yr.1 []).getD xv.1 0,
     (pb.getD yr.1 []).getD xv.1 0)))

/-- All scalar entries of a three-plane image, in row-major R, G, B order. -/
def rgbEntries (img : RGBQ) : List ℚ :=
  img.flatMap (fun row => row.flatMap (fun t => [t.1, t.2.1, t.2.2]))

/-- `image.max()` over a three-plane image. -/
def rgbMax (img : RGBQ) : ℚ := maxD (rgbEntries img)

/-- Number of pixels (`h * w`) of a three-plane image. -/
def pixCount (img : RGBQ) : ℕ := (img.map List.length).sum

/-- `np.mean(image, axis=(0, 1))` for one channel selected by `f`. -/
def chanMean (img : RGBQ) (f : ℚ × ℚ × ℚ → ℚ) : ℚ :=
  (img.flatMap (fun row => row.map f)).sum / (pixCount img : ℚ)

/-- Apply `f` to every pixel. -/
def rgbPixMap (f : ℚ × ℚ × ℚ → ℚ × ℚ × ℚ) (img : RGBQ) : RGBQ :=
  img.map (fun row => row.map f)

/-- Apply `f` to every scalar entry (numpy broadcasting of a pointwise op). -/
def rgbMap (f : ℚ → ℚ) (img : RGBQ) : RGBQ :=
  rgbPixMap (fun t => (f t.1, f t.2.1, f t.2.2)) img

/-- `ISPProcessor.apply_white_balance` on a three-plane image (in
`process_stage` the stage always runs after `demosaic`). -/
def apply_white_balance (img : RGBQ) (p : ISPParameters) : RGBQ :=
  let gains : ℚ × ℚ × ℚ :=
    if p.auto_wb then
      let mr := chanMean img (fun t => t.1)
      let mg := chanMean img (fun t => t.2.1)
      let mb := chanMean img (fun t => t.2.2)
      let gray := (mr + mg + mb) / 3
      (gray / (mr + 1/1000000), gray / (mg + 1/1000000),
       gray / (mb + 1/1000000))
    else (p.wb_r_gain, p.wb_g_gain, p.wb_b_gain)
  rgbPixMap (fun t => (t.1 * gains.1, t.2.1 * gains.2.1, t.2.2 * gains.2.2))
    img

/-- `ISPProcessor.apply_lens_shading`. The source computes
`(dist / max_dist) ** 2` with `dist = sqrt((x-cx)² + (y-cy)²)` and
`max_dist = sqrt(cx² + cy²)`; since `(√a / √b)² = a / b` for `a, b ≥ 0`, the
correction is the exact rational `1 + strength · ((x-cx)² + (y-cy)²) /
(cx² + cy²)`. (At `cx = cy = 0` numpy produces NaN by `0/0`; in `ℚ` the
division is `0`. No claim touches that corner.) -/
def apply_lens_shading (img : RGBQ) (p : ISPParameters) : RGBQ :=
  if p.lsc_enabled = false then img
  else
    let w := (img.headD []).length
    let h := img.length
    let cx := (w : ℚ) * p.lsc_center_x
    let cy := (h : ℚ) * p.lsc_center_y
    img.enum.map (fun yr => yr.2.enum.map (fun xv =>
      let corr := 1 + p.lsc_strength *
        ((((xv.1 : ℚ) - cx) ^ 2 + ((yr.1 : ℚ) - cy) ^ 2) / (cx ^ 2 + cy ^ 2))
      (xv.2.1 * corr, xv.2.2.1 * corr, xv.2.2.2 * corr)))

/-- `ISPProcessor.apply_gtm` (global tone mapping). -/
def apply_gtm (img : RGBQ) (p : ISPParameters) : RGBQ :=
  if p.gtm_enabled = false then img
  else
    let m := if 0 < rgbMax img then rgbMax img else 1
    let contrasted := rgbMap (fun v => (v / m - 1/2) * p.gtm_contrast + 1/2)
      img
    let curved :=
      if p.gtm_strength ≠ 1 then
        rgbMap (fun v => fpow v (1 / p.gtm_strength)) contrasted
      else contrasted
    rgbMap (fun v => clipQ (v * m) 0 m) curved

/-- `ISPProcessor.apply_exposure`: `2^EV` scaling, then highlight
compression above 80% of the (post-EV) maximum, then shadow lift below 20%
of the (possibly already compressed) maximum. `0.8`, `0.2`, `0.5` are the
exact rationals `4/5`, `1/5`, `1/2` in this real-valued model. -/
def apply_exposure (img : RGBQ) (p : ISPParameters) : RGBQ :=
  let scaled := rgbMap (fun v => v * fpow 2 p.exposure_ev) img
  let highlights :=
    if 0 < p.highlight_recovery then
      let m := if 0 < rgbMax scaled then rgbMax scaled else 1
      rgbMap (fun v =>
        if m * (4/5) < v then
          m * (4/5) + (v - m * (4/5)) * (1 - p.highlight_recovery * (1/2))
        else v) scaled
    else scaled
  if 0 < p.shadow_recovery then
    let m := if 0 < rgbMax highlights then rgbMax highlights else 1
    rgbMap (fun v => if v < m * (1/5) then v * (1 + p.shadow_recovery) else v)
      highlights
  else highlights

/-- `ISPProcessor.apply_gamma`. -/
def apply_gamma (img : RGBQ) (p : ISPParameters) : RGBQ :=
  if p.gamma_enabled = false then img
  else
    let m := if 0 < rgbMax img then rgbMax img else 1
    rgbMap (fun v => fpow (v / m) (1 / p.gamma_value) * m) img

/-- `ISPProcessor.apply_color_correction` on a three-plane image (the
source returns non-3-D inputs unchanged; `RGBQ` is always three-plane).
Blends each channel toward the per-pixel luma by `saturation`, then clips
into `[0, result.max()]`. -/
def apply_color_correction (img : RGBQ) (p : ISPParameters) : RGBQ :=
  let sat := rgbPixMap (fun t =>
    let gray := (t.1 + t.2.1 + t.2.2) / 3
    (gray + (t.1 - gray) * p.saturation, gray + (t.2.1 - gray) * p.saturation,
     gray + (t.2.2 - gray) * p.saturation)) img
  rgbMap (fun v => clipQ v 0 (rgbMax sat)) sat

/-- The body of `ISPProcessor.process_stage` once raw data is present: the
cumulative `if stage >= k` chain. The chain only ever produces a one-plane
image when `stage ≤ 1` and a three-plane image from the `demosaic` step on,
so the dynamic numpy shapes are split by type here; the inner
`image if stage > 1 else self.apply_black_level(self.raw_data, params)`
argument of `demosaic` is transcribed verbatim (under `stage ≥ 2` both
arms are the black-level output). -/
def process_core (stage : ℕ) (p : ISPParameters) (raw : GrayN) : Img :=
  if 2 ≤ stage then
    let blacked := apply_black_level raw p
    let start := if 1 < stage then blacked else apply_black_level raw p
    let i := demosaic start p
    let i := if 3 ≤ stage then apply_white_balance i p else i
    let i := if 4 ≤ stage then apply_lens_shading i p else i
    let i := if 5 ≤ stage then apply_gtm i p else i
    let i := if 6 ≤ stage then apply_exposure i p else i
    let i := if 7 ≤ stage then apply_gamma i p else i
    let i := if 8 ≤ stage then apply_color_correction i p else i
    Img.rgb i
  else if 1 ≤ stage then Img.gray (apply_black_level raw p)
  else Img.gray (toQGrid raw)

/-- The mutable state of an `ISPProcessor` instance: the decoded raw grid
and the stage-indexed output cache `processed_stages`. -/
structure ISPState where
  raw_data : Option GrayN
  processed_stages : ℕ → Option Img

/-- `ISPProcessor.process_stage`: with no raw data it returns the (integer)
placeholder grid and leaves the cache untouched; otherwise it recomputes
from the raw grid, stores the result under the requested stage index and
returns it. -/
def process_stage (stage : ℕ) (p : ISPParameters) (st : ISPState) :
    Img × ISPState :=
  match st.raw_data with
  | none => (Img.gray (toQGrid (create_placeholder p.width p.height)), st)
  | some raw =>
    let img := process_core stage p raw
    (img,
     { st with processed_stages := fun s =>
        if s = stage then some img else st.processed_stages s })

/-- The six three-plane stage transforms in the spec's fixed order
white balance, lens shading, tone mapping, exposure, gamma, color
correction. -/
def rgbStageFuns (p : ISPParameters) : List (RGBQ → RGBQ) :=
  [fun i => apply_white_balance i p,
   fun i => apply_lens_shading i p,
   fun i => apply_gtm i p,
   fun i => apply_exposure i p,
   fun i => apply_gamma i p,
   fun i => apply_color_correction i p]

/-- The specification's description of `processStage(n, params)`: the raw
grid converted to float, with the individual stage functions 1..n composed
over it in the fixed order black level, demosaic, then the six three-plane
stages. -/
def spec_compose (n : ℕ) (p : ISPParameters) (raw : GrayN) : Img :=
  if n = 0 then Img.gray (toQGrid raw)
  else if n = 1 then Img.gray (apply_black_level raw p)
  else
    Img.rgb (((rgbStageFuns p).take (n - 2)).foldl (fun i f => f i)
      (demosaic (apply_black_level raw p) p))

/-- All scalar entries of a one-plane image. -/
def grayEntries (g : GrayQ) : List ℚ := g.flatten

/-- `image.max()` over either buffer shape. -/
def imgMax : Img → ℚ
  | Img.gray g => maxD (grayEntries g)
  | Img.rgb r => rgbMax r

/-- Does the buffer have at least one entry? (numpy `.max()` raises on an
empty array, so `to_qimage` is only meaningful on nonempty buffers.) -/
def imgNonempty : Img → Bool
  | Img.gray g => !(grayEntries g).isEmpty
  | Img.rgb r => !(rgbEntries r).isEmpty

/-- `ISPProcessor.to_qimage`: normalize by the buffer's own maximum into
8 bits when the maximum is positive, else an all-zero 8-bit buffer; a
three-plane buffer additionally gets a fully opaque alpha plane. -/
def to_qimage (i : Img) : QImg :=
  match i with
  | Img.gray g =>
    if 0 < maxD (grayEntries g) then
      QImg.gray8 (g.map (fun row => row.map (fun v =>
        toU8 (v / maxD (grayEntries g) * 255))))
    else QImg.gray8 (g.map (fun row => row.map (fun _ => 0)))
  | Img.rgb r =>
    if 0 < rgbMax r then
      QImg.rgba8 (r.map (fun row => row.map (fun t =>
        (toU8 (t.1 / rgbMax r * 255), toU8 (t.2.1 / rgbMax r * 255),
         toU8 (t.2.2 / rgbMax r * 255), 255))))
    else QImg.rgba8 (r.map (fun row => row.map (fun _ => (0, 0, 0, 255))))

/-- Every color sample (gray, or R/G/B ignoring alpha) of the 8-bit output
is zero. -/
def qimgColorZero : QImg → Bool
  | QImg.gray8 g => g.all (fun row => row.all (fun v => v == 0))
  | QImg.rgba8 r => r.all (fun row => row.all (fun t =>
      t.1 == 0 && t.2.1 == 0 && t.2.2.1 == 0))

/-- Every color sample of the 8-bit output is at most 255. -/
def qimgColorLe255 : QImg → Bool
  | QImg.gray8 g => g.all (fun row => row.all (fun v => v ≤ 255))
  | QImg.rgba8 r => r.all (fun row => row.all (fun t =>
      t.1 ≤ 255 && t.2.1 ≤ 255 && t.2.2.1 ≤ 255))

/-- Every entry of a one-plane float image is nonnegative. -/
def grayAllNonNeg (g : GrayQ) : Bool :=
  g.all (fun row => row.all (fun v => decide (0 ≤ v)))

/-- Every entry of a one-plane float image is zero. -/
def grayAllZeroQ (g : GrayQ) : Bool :=
  g.all (fun row => row.all (fun v => v == 0))

/-- Every sample of a raw integer grid is zero. -/
def grayAllZeroN (g : GrayN) : Bool :=
  g.all (fun row => row.all (fun v => v == 0))

/-- Every entry of a three-plane image is nonnegative. -/
def rgbAllNonNeg (img : RGBQ) : Bool :=
  img.all (fun row => row.all (fun t =>
    decide (0 ≤ t.1) && decide (0 ≤ t.2.1) && decide (0 ≤ t.2.2)))

/-- The 5 bytes that carry 4 ten-bit samples under the §4.2 packing scheme:
`b_k` holds the high 8 bits of sample `k` for `k < 4`, and `b4` holds the
two low bits of sample `k` at bit positions `2k` and `2k+1`. -/
def pack10 (v0 v1 v2 v3 : ℕ) : List ℕ :=
  [v0 / 4, v1 / 4, v2 / 4, v3 / 4,
   v0 % 4 + 4 * (v1 % 4) + 16 * (v2 % 4) + 64 * (v3 % 4)]

theorem land_three (x : ℕ) : x &&& 3 = x % 4 := by
  have h := Nat.and_pow_two_sub_one_eq_mod x 2
  norm_num at h
  exact h

theorem land_1023 (x : ℕ) : x &&& 1023 = x % 1024 := by
  have h := Nat.and_pow_two_sub_one_eq_mod x 10
  norm_num at h
  exact h

theorem shiftLeft2_lor (a b : ℕ) (hb : b < 4) : (a <<< 2) ||| b = 4 * a + b := by
  have hb2 : b < 2 ^ 2 := by norm_num; omega
  calc (a <<< 2) ||| b = 2 ^ 2 * a ||| b := by rw [Nat.shiftLeft_eq, Nat.mul_comm]
    _ = 2 ^ 2 * a + b := (Nat.mul_add_lt_is_or hb2 a).symm
    _ = 4 * a + b := by norm_num

theorem quintuple_pack (v0 v1 v2 v3 : ℕ) (h0 : v0 < 1024) (h1 : v1 < 1024)
    (h2 : v2 < 1024) (h3 : v3 < 1024) :
    quintuple (v0 / 4) (v1 / 4) (v2 / 4) (v3 / 4)
      (v0 % 4 + 4 * (v1 % 4) + 16 * (v2 % 4) + 64 * (v3 % 4)) =
      [v0, v1, v2, v3] := by
  unfold quintuple
  simp only [Nat.shiftRight_eq_div_pow, land_three, land_1023, List.cons.injEq,
    and_true]
  norm_num
  refine ⟨?_, ?_, ?_, ?_⟩
  · rw [show (v0 % 4 + 4 * (v1 % 4) + 16 * (v2 % 4) + 64 * (v3 % 4)) % 4
        = v0 % 4 by omega,
      shiftLeft2_lor _ _ (Nat.mod_lt _ (by norm_num))]
    omega
  · rw [show (v0 % 4 + 4 * (v1 % 4) + 16 * (v2 % 4) + 64 * (v3 % 4)) / 4 % 4
        = v1 % 4 by omega,
      shiftLeft2_lor _ _ (Nat.mod_lt _ (by norm_num))]
    omega
  · rw [show (v0 % 4 + 4 * (v1 % 4) + 16 * (v2 % 4) + 64 * (v3 % 4)) / 16 % 4
        = v2 % 4 by omega,
      shiftLeft2_lor _ _ (Nat.mod_lt _ (by norm_num))]
    omega
  · rw [show (v0 % 4 + 4 * (v1 % 4) + 16 * (v2 % 4) + 64 * (v3 % 4)) / 64 % 4
        = v3 % 4 by omega,
      shiftLeft2_lor _ _ (Nat.mod_lt _ (by norm_num))]
    omega

theorem unpack_10bit_five (a b c d e : ℕ) :
    unpack_10bit [a, b, c, d, e] 4 1 = [quintuple a b c d e] := by
  norm_num [unpack_10bit, reshapeRows, show List.range 1 = [0] from rfl,
    List.flatMap_cons, List.flatMap_nil, List.getD]
  simp [quintuple]

/-- C2. Packing any 4 ten-bit values into 5 bytes per the §4.2 scheme
(`pack10`) and decoding them with `ISPProcessor._unpack_10bit` (as a 4×1
grid) recovers exactly the original 4 values. -/
theorem unpack10_roundtrip (v0 v1 v2 v3 : ℕ) (h0 : v0 < 1024)
    (h1 : v1 < 1024) (h2 : v2 < 1024) (h3 : v3 < 1024) :
    unpack_10bit (pack10 v0 v1 v2 v3) 4 1 = [[v0, v1, v2, v3]] := by
  rw [show pack10 v0 v1 v2 v3 =
      [v0 / 4, v1 / 4, v2 / 4, v3 / 4,
       v0 % 4 + 4 * (v1 % 4) + 16 * (v2 % 4) + 64 * (v3 % 4)] from rfl,
    unpack_10bit_five, quintuple_pack v0 v1 v2 v3 h0 h1 h2 h3]

/-- C2, concrete instance: the spec's `(1, 2, 3, 4)` example decodes back to
`[1, 2, 3, 4]`. -/
theorem unpack10_roundtrip_witness :
    unpack_10bit (pack10 1 2 3 4) 4 1 = [[1, 2, 3, 4]] :=
  unpack10_roundtrip 1 2 3 4 (by norm_num) (by norm_num) (by norm_num)
    (by norm_num)

/-- C1. `process_stage(n, params)` for `0 ≤ n ≤ 8` always recomputes from the
raw grid: whatever the contents of the `processed_stages` cache (and hence
whatever earlier `process_stage` calls happened, since they only write that
cache), the returned buffer is exactly the composition `spec_compose` of the
individual stage functions 1..n, in the fixed order black level, demosaic,
white balance, lens shading, tone mapping, exposure, gamma, color
correction, applied to the float-converted raw grid. -/
theorem process_stage_replays_from_raw (n : ℕ) (p : ISPParameters)
    (st : ISPState) (raw : GrayN) (hn : n ≤ 8)
    (hraw : st.raw_data = some raw) :
    (process_stage n p st).1 = spec_compose n p raw := by
  rcases st with ⟨rd, cache⟩
  simp only at hraw
  subst hraw
  interval_cases n <;> rfl

/-- C1, concrete instance: stage 3 on a 2×2 raw grid with a nonempty cache. -/
theorem process_stage_replays_from_raw_witness :
    (process_stage 3 {}
      { raw_data := some [[1, 2], [3, 4]],
        processed_stages := fun _ => some (Img.gray [[0]]) }).1 =
      spec_compose 3 {} [[1, 2], [3, 4]] :=
  process_stage_replays_from_raw 3 {} _ [[1, 2], [3, 4]] (by norm_num) rfl

/-- C10. `process_stage` with stage index 9 (the "Output Preview" slide)
returns exactly the buffer of stage index 8: every `if stage >= k` guard in
the chain holds equally for 9 and for 8, so no transform beyond color
correction is applied. -/
theorem process_stage9_eq_stage8 (p : ISPParameters) (st : ISPState) :
    (process_stage 9 p st).1 = (process_stage 8 p st).1 := by
  rcases st with ⟨rd, cache⟩
  cases rd with
  | none => rfl
  | some raw => rfl

theorem create_placeholder_checkerboard (w h : ℕ) :
    create_placeholder w h = (List.range h).map (fun y =>
      (List.range w).map (fun x =>
        if (x / 100 + y / 100) % 2 = 1 then 768 else 256)) := by
  unfold create_placeholder
  refine List.map_congr_left (fun y _ => List.map_congr_left (fun x _ => ?_))
  rcases Nat.mod_two_eq_zero_or_one (x / 100 + y / 100) with hpar | hpar <;>
    simp [hpar]

/-- C4. With `packed = false`, a buffer holding fewer than `width * height`
16-bit samples (fewer than `2 * width * height` bytes; this also covers an
odd byte count, where numpy's `frombuffer` raises and `load_raw` falls into
its `except` branch) decodes to the synthetic checkerboard: 768 where
`x / 100 + y / 100` is odd, 256 where it is even — the same grid whatever
the bytes were. -/
theorem short_buffer_checkerboard (p : ISPParameters) (data : List ℕ)
    (hp : p.packed = false) (hlen : data.length < p.width * p.height * 2) :
    load_raw data p = (List.range p.height).map (fun y =>
      (List.range p.width).map (fun x =>
        if (x / 100 + y / 100) % 2 = 1 then 768 else 256)) := by
  rw [← create_placeholder_checkerboard]
  unfold load_raw
  rw [hp]
  simp only [Bool.false_eq_true, false_and, if_false, if_neg (by simp :
    ¬(false = true ∧ p.bpp = 10))]
  have htake : (data.take (p.width * p.height * 2)).length = data.length := by
    rw [List.length_take]
    omega
  by_cases hpar : data.length % 2 = 0
  · have hsam : (u16LE (data.take (p.width * p.height * 2))).length
        = data.length / 2 := by
      simp [u16LE, htake]
    simp only [htake, hpar, ne_eq, not_true_eq_false, if_false,
      not_false_eq_true, if_true]
    rw [if_neg]
    rw [hsam]
    omega
  · simp [htake, hpar]

/-- C4, concrete instance: a 3-byte buffer for a 2×2 unpacked grid decodes
to the all-256 checkerboard corner. -/
theorem short_buffer_checkerboard_witness :
    load_raw [9, 9, 9] { width := 2, height := 2, packed := false } =
      (List.range 2).map (fun y => (List.range 2).map (fun x =>
        if (x / 100 + y / 100) % 2 = 1 then 768 else 256)) :=
  short_buffer_checkerboard { width := 2, height := 2, packed := false }
    [9, 9, 9] rfl (by norm_num)

theorem blackLevelFor_nonneg (p : ISPParameters) (yy xx : ℕ)
    (hr : 0 ≤ p.black_level_r) (hgr : 0 ≤ p.black_level_gr)
    (hgb : 0 ≤ p.black_level_gb) (hb : 0 ≤ p.black_level_b) :
    0 ≤ blackLevelFor p yy xx := by
  unfold blackLevelFor
  dsimp only
  split_ifs <;> assumption

/-- C5. The black-level stage output is nonnegative for every raw grid and
every choice of the four black levels, and (for black levels in their valid
nonnegative range, §6 gives 0–1023) an all-zero raw grid stays all zero. -/
theorem black_level_nonneg_zero (p : ISPParameters) (raw : GrayN) :
    grayAllNonNeg (apply_black_level raw p) = true ∧
    (0 ≤ p.black_level_r → 0 ≤ p.black_level_gr → 0 ≤ p.black_level_gb →
     0 ≤ p.black_level_b → grayAllZeroN raw = true →
     grayAllZeroQ (apply_black_level raw p) = true) := by
  constructor
  · simp only [grayAllNonNeg, apply_black_level, List.all_eq_true]
    intro row hrow v hv
    rw [List.mem_map] at hrow
    obtain ⟨yr, hyr, rfl⟩ := hrow
    rw [List.mem_map] at hv
    obtain ⟨xv, hxv, rfl⟩ := hv
    simp only [decide_eq_true_eq]
    exact le_max_left 0 _
  · intro hr hgr hgb hb hz
    simp only [grayAllZeroN, List.all_eq_true, beq_iff_eq] at hz
    simp only [grayAllZeroQ, apply_black_level, List.all_eq_true, beq_iff_eq]
    intro row hrow v hv
    rw [List.mem_map] at hrow
    obtain ⟨yr, hyr, rfl⟩ := hrow
    rw [List.mem_map] at hv
    obtain ⟨xv, hxv, rfl⟩ := hv
    have hrowmem : yr.2 ∈ raw := List.snd_mem_of_mem_enum hyr
    have hvmem : xv.2 ∈ yr.2 := List.snd_mem_of_mem_enum hxv
    have hv0 : xv.2 = 0 := hz yr.2 hrowmem xv.2 hvmem
    rw [hv0]
    have hbl : (0 : ℚ) ≤
        (blackLevelFor p (yr.1 % 2) (xv.1 % 2) : ℚ) := by
      exact_mod_cast blackLevelFor_nonneg p _ _ hr hgr hgb hb
    push_cast
    rw [max_eq_left (by linarith)]

/-- C5, concrete instance: a 2×2 all-zero grid with the default black
levels (64 each). -/
theorem black_level_nonneg_zero_witness :
    grayAllNonNeg (apply_black_level [[0, 0], [0, 0]] {}) = true ∧
    grayAllZeroQ (apply_black_level [[0, 0], [0, 0]] {}) = true :=
  ⟨(black_level_nonneg_zero {} [[0, 0], [0, 0]]).1,
   (black_level_nonneg_zero {} [[0, 0], [0, 0]]).2 (by norm_num)
     (by norm_num) (by norm_num) (by norm_num) (by decide)⟩
theorem le_foldl_max (l : List ℚ) (a : ℚ) : a ≤ l.foldl max a := by
  induction l generalizing a with
  | nil => exact le_refl a
  | cons x xs ih => exact le_trans (le_max_left a x) (ih (max a x))

theorem mem_le_foldl_max (l : List ℚ) (a b : ℚ) (hb : b ∈ l) :
    b ≤ l.foldl max a := by
  induction l generalizing a with
  | nil => cases hb
  | cons x xs ih =>
    rcases List.mem_cons.mp hb with rfl | h
    · exact le_trans (le_max_right a b) (le_foldl_max xs (max a b))
    · exact ih (max a x) h

theorem le_maxD_of_mem (l : List ℚ) (v : ℚ) (hv : v ∈ l) : v ≤ maxD l := by
  cases l with
  | nil => cases hv
  | cons x xs =>
    rcases List.mem_cons.mp hv with rfl | h
    · exact le_foldl_max xs v
    · exact mem_le_foldl_max xs x v h

theorem le_rgbMax_of_mem (img : RGBQ) (v : ℚ) (hv : v ∈ rgbEntries img) :
    v ≤ rgbMax img := le_maxD_of_mem _ v hv

theorem mem_rgbEntries (img : RGBQ) (row : List (ℚ × ℚ × ℚ))
    (t : ℚ × ℚ × ℚ) (hrow : row ∈ img) (ht : t ∈ row) :
    t.1 ∈ rgbEntries img ∧ t.2.1 ∈ rgbEntries img ∧
      t.2.2 ∈ rgbEntries img := by
  refine ⟨?_, ?_, ?_⟩ <;>
  · simp only [rgbEntries, List.mem_flatMap]
    exact ⟨row, hrow, t, ht, by simp⟩

theorem rgbPixMap_congr_id (f : ℚ × ℚ × ℚ → ℚ × ℚ × ℚ) (img : RGBQ)
    (h : ∀ row ∈ img, ∀ t ∈ row, f t = t) : rgbPixMap f img = img := by
  unfold rgbPixMap
  conv_rhs => rw [← List.map_id img]
  refine List.map_congr_left (fun row hr => ?_)
  show row.map f = id row
  rw [show id row = row from rfl]
  conv_rhs => rw [← List.map_id row]
  exact List.map_congr_left (fun t ht => h row hr t ht)

theorem rgbMap_congr_id (f : ℚ → ℚ) (img : RGBQ)
    (h : ∀ v ∈ rgbEntries img, f v = v) : rgbMap f img = img := by
  unfold rgbMap
  refine rgbPixMap_congr_id _ _ (fun row hr t ht => ?_)
  obtain ⟨h1, h2, h3⟩ := mem_rgbEntries img row t hr ht
  rw [h t.1 h1, h t.2.1 h2, h t.2.2 h3]

theorem rgbMap_rgbMap (f g : ℚ → ℚ) (img : RGBQ) :
    rgbMap f (rgbMap g img) = rgbMap (fun v => f (g v)) img := by
  unfold rgbMap rgbPixMap
  rw [List.map_map]
  refine List.map_congr_left (fun row _ => ?_)
  simp only [Function.comp_apply, List.map_map]
  rfl

theorem rgbAllNonNeg_entries (img : RGBQ) (h : rgbAllNonNeg img = true) :
    ∀ v ∈ rgbEntries img, 0 ≤ v := by
  simp only [rgbAllNonNeg, List.all_eq_true, Bool.and_eq_true,
    decide_eq_true_eq] at h
  simp only [rgbEntries, List.mem_flatMap, List.mem_cons,
    List.not_mem_nil, or_false]
  rintro v ⟨row, hrow, t, ht, hv⟩
  obtain ⟨⟨h1, h2⟩, h3⟩ := h row hrow t ht
  rcases hv with rfl | rfl | rfl
  · exact h1
  · exact h2
  · exact h3

theorem fpow_one (x : ℚ) : fpow x 1 = x := by
  norm_num [fpow]

/-- C6. Each parameter setting makes its stage the (exact, in this
real-valued model) identity on every nonnegative three-plane image:
gamma enabled with `gamma_value = 1`; `saturation = 1`; tone mapping
enabled with `gtm_strength = 1` and `gtm_contrast = 1`. -/
theorem stage_identity_params (pg pc pt : ISPParameters) (img : RGBQ)
    (hnn : rgbAllNonNeg img = true)
    (hge : pg.gamma_enabled = true) (hgv : pg.gamma_value = 1)
    (hsat : pc.saturation = 1)
    (hte : pt.gtm_enabled = true) (hts : pt.gtm_strength = 1)
    (htc : pt.gtm_contrast = 1) :
    apply_gamma img pg = img ∧ apply_color_correction img pc = img ∧
    apply_gtm img pt = img := by
  refine ⟨?_, ?_, ?_⟩
  · unfold apply_gamma
    rw [hge]
    rw [if_neg (by norm_num)]
    set m := if 0 < rgbMax img then rgbMax img else 1 with hmdef
    have hm : m ≠ 0 := by
      rw [hmdef]
      split
      · exact ne_of_gt (by assumption)
      · norm_num
    refine rgbMap_congr_id _ _ (fun v _ => ?_)
    rw [hgv]
    norm_num [fpow_one]
    exact div_mul_cancel₀ v hm
  · simp only [apply_color_correction]
    rw [hsat]
    have hsatid : rgbPixMap (fun t =>
        ((t.1 + t.2.1 + t.2.2) / 3 + (t.1 - (t.1 + t.2.1 + t.2.2) / 3) * 1,
         (t.1 + t.2.1 + t.2.2) / 3 + (t.2.1 - (t.1 + t.2.1 + t.2.2) / 3) * 1,
         (t.1 + t.2.1 + t.2.2) / 3 + (t.2.2 - (t.1 + t.2.1 + t.2.2) / 3) * 1))
        img = img := by
      refine rgbPixMap_congr_id _ _ (fun row hr t ht => ?_)
      have e1 : (t.1 + t.2.1 + t.2.2) / 3 +
          (t.1 - (t.1 + t.2.1 + t.2.2) / 3) * 1 = t.1 := by ring
      have e2 : (t.1 + t.2.1 + t.2.2) / 3 +
          (t.2.1 - (t.1 + t.2.1 + t.2.2) / 3) * 1 = t.2.1 := by ring
      have e3 : (t.1 + t.2.1 + t.2.2) / 3 +
          (t.2.2 - (t.1 + t.2.1 + t.2.2) / 3) * 1 = t.2.2 := by ring
      rw [e1, e2, e3]
    rw [hsatid]
    refine rgbMap_congr_id _ _ (fun v hv => ?_)
    have hv0 := rgbAllNonNeg_entries img hnn v hv
    have hvm := le_rgbMax_of_mem img v hv
    unfold clipQ
    rw [max_eq_right hv0]
    exact min_eq_right hvm
  · simp only [apply_gtm, hte, hts, htc]
    rw [if_neg (by simp : ¬(true = false))]
    rw [if_neg (by norm_num : ¬((1 : ℚ) ≠ 1))]
    set m := if 0 < rgbMax img then rgbMax img else 1 with hmdef
    have hm : m ≠ 0 := by
      rw [hmdef]
      split
      · exact ne_of_gt (by assumption)
      · norm_num
    rw [rgbMap_rgbMap]
    refine rgbMap_congr_id _ _ (fun v hv => ?_)
    have hv0 : (0 : ℚ) ≤ v := rgbAllNonNeg_entries img hnn v hv
    have hvm : v ≤ rgbMax img := le_rgbMax_of_mem img v hv
    have hsimp : ((v / m - 1/2) * 1 + 1/2) * m = v := by
      field_simp
      ring
    rw [hsimp]
    unfold clipQ
    rw [max_eq_right hv0]
    rw [hmdef]
    split
    · exact min_eq_right hvm
    · have hv00 : v = 0 := le_antisymm
        (le_trans hvm (not_lt.mp (by assumption))) hv0
      rw [hv00]
      norm_num

/-- C6, concrete instance: the three identities on the pixel `(1, 2, 3)`
with the stage parameters at their identity settings. -/
theorem stage_identity_params_witness :
    apply_gamma [[(1, 2, 3)]] { gamma_value := 1 } = [[(1, 2, 3)]] ∧
    apply_color_correction [[(1, 2, 3)]] {} = [[(1, 2, 3)]] ∧
    apply_gtm [[(1, 2, 3)]] {} = [[(1, 2, 3)]] :=
  stage_identity_params { gamma_value := 1 } {} {} [[(1, 2, 3)]]
    (by decide) rfl rfl rfl rfl rfl rfl

theorem leadMatch_iff (n h : List Char) : leadMatch n h = true ↔ n <+: h := by
  induction n generalizing h with
  | nil => simp [leadMatch]
  | cons a as ih =>
    cases h with
    | nil => simp [leadMatch]
    | cons b bs => simp [leadMatch, ih, List.cons_prefix_cons]

theorem subOccurs_iff (n h : List Char) : subOccurs n h = true ↔ n <:+: h := by
  induction h with
  | nil => simp [subOccurs, List.isEmpty_iff]
  | cons b bs ih => simp [subOccurs, leadMatch_iff, ih, List.infix_cons_iff]

theorem occursIn_revision (key : String)
    (h : occursIn "framemetarevisionver" key = true) :
    occursIn "revision" key = true := by
  unfold occursIn at h ⊢
  rw [subOccurs_iff] at h ⊢
  exact List.IsInfix.trans ⟨"framemeta".data, "ver".data, rfl⟩ h

/-- C7, counterexample to the claim as stated: the key
`"shotmetarevisionverframemetarevisionver"` contains the substring
`"framemetarevisionver"`, but its value goes to `shot_meta_revision_ver`
(the first branch of the chain), not to `frame_meta_revision_ver`. -/
theorem framemetarevisionver_cex :
    (parseMetadata
      "shotmetarevisionverframemetarevisionver: 5").frame_meta_revision_ver
      ≠ 5 := by
  decide

/-- C7, amended. For a line whose lower-cased key contains
`"framemetarevisionver"` but not `"shotmetarevisionver"`, and whose value
parses as an integer, the branch chain assigns the value to
`frame_meta_revision_ver` and leaves `frame_meta_ver` untouched: such a key
always contains `"revision"`, so the earlier, shorter `"framemetaver"`
branch can never capture it. -/
theorem framemetarevisionver_assignment (m : RawMetadata)
    (key value : String) (n : ℤ)
    (hf : occursIn "framemetarevisionver" key = true)
    (hs : occursIn "shotmetarevisionver" key = false)
    (hv : pyInt value = some n) :
    (updateMeta m key value).frame_meta_revision_ver = n ∧
    (updateMeta m key value).frame_meta_ver = m.frame_meta_ver := by
  have hrev := occursIn_revision key hf
  unfold updateMeta
  rw [if_neg (by simp [hs]), if_neg (by simp [hrev]), if_pos hf]
  simp [setIntField, hv]

/-- C7, concrete instance of the amended claim: the spec's own example key. -/
theorem framemetarevisionver_assignment_witness :
    (updateMeta {} "framemetarevisionver" "5").frame_meta_revision_ver = 5 ∧
    (updateMeta {} "framemetarevisionver" "5").frame_meta_ver = 0 :=
  framemetarevisionver_assignment {} "framemetarevisionver" "5" 5
    (by decide) (by decide) (by decide)

/-- C8, counterexample to the claim as stated: on the 1×1 image with the
single pixel `(1, 1, 1)` all three channel means equal 1, yet auto white
balance multiplies every sample by `1 / (1 + 10⁻⁶) = 1000000/1000001 ≠ 1`
(the gray-world gain has the `1e-6` guard in its denominator), so the image
is not numerically unchanged. -/
theorem auto_wb_equal_means_cex :
    apply_white_balance [[(1, 1, 1)]] { auto_wb := true } ≠ [[(1, 1, 1)]] := by
  norm_num [apply_white_balance, chanMean, pixCount, rgbPixMap]

/-- C8, amended. On a three-plane image whose channel means are all equal
(say to `m`), auto white balance scales every sample by the single factor
`m / (m + 10⁻⁶)` — a uniform scaling that is within a relative `10⁻⁶ / m`
of the identity for `m > 0`, and exactly the identity only on an all-zero
image; the image is not exactly unchanged. -/
theorem auto_wb_equal_means_uniform_scale (img : RGBQ) (p : ISPParameters)
    (ha : p.auto_wb = true)
    (hrg : chanMean img (fun t => t.1) = chanMean img (fun t => t.2.1))
    (hgb : chanMean img (fun t => t.2.1) = chanMean img (fun t => t.2.2)) :
    apply_white_balance img p =
      rgbMap (fun v => v * (chanMean img (fun t => t.1) /
        (chanMean img (fun t => t.1) + 1/1000000))) img := by
  have hrb : chanMean img (fun t => t.1) = chanMean img (fun t => t.2.2) :=
    hrg.trans hgb
  simp only [apply_white_balance, ha, if_true]
  rw [← hrg, ← hrb]
  rw [show (chanMean img (fun t => t.1) + chanMean img (fun t => t.1) +
      chanMean img (fun t => t.1)) / 3 = chanMean img (fun t => t.1) by ring]
  rfl

/-- C8, concrete instance of the amended claim: a 1×2 image with all three
channel means equal to 2. -/
theorem auto_wb_equal_means_uniform_scale_witness :
    apply_white_balance [[(1, 2, 3), (3, 2, 1)]] { auto_wb := true } =
      rgbMap (fun v => v *
        (chanMean [[(1, 2, 3), (3, 2, 1)]] (fun t => t.1) /
          (chanMean [[(1, 2, 3), (3, 2, 1)]] (fun t => t.1) + 1/1000000)))
        [[(1, 2, 3), (3, 2, 1)]] :=
  auto_wb_equal_means_uniform_scale [[(1, 2, 3), (3, 2, 1)]]
    { auto_wb := true } rfl (by norm_num [chanMean, pixCount])
    (by norm_num [chanMean, pixCount])

theorem toU8_le_255 (q : ℚ) : toU8 q ≤ 255 := by
  unfold toU8
  have h1 : truncQ q % 256 < 256 := Int.emod_lt_of_pos _ (by norm_num)
  omega
/-- C9. `to_qimage` on a nonempty buffer (numpy's `.max()` raises on an
empty one): when the buffer's maximum is ≤ 0 it takes the `np.zeros_like`
branch — no division happens and every color sample of the 8-bit output is
zero — and when the maximum is positive it normalizes by that maximum and
every 8-bit color sample lands in `[0, 255]` (the samples are `ℕ`, so the
lower bound is the type and the upper bound is proved). -/
theorem to_qimage_safe (i : Img) (hne : imgNonempty i = true) :
    (imgMax i ≤ 0 → qimgColorZero (to_qimage i) = true) ∧
    (0 < imgMax i → qimgColorLe255 (to_qimage i) = true) := by
  constructor
  · intro hmax
    cases i with
    | gray g =>
      simp only [imgMax] at hmax
      simp only [to_qimage, if_neg (not_lt.mpr hmax)]
      simp only [qimgColorZero, List.all_eq_true]
      intro row hrow v hv
      rw [List.mem_map] at hrow
      obtain ⟨r0, _, rfl⟩ := hrow
      rw [List.mem_map] at hv
      obtain ⟨v0, _, rfl⟩ := hv
      rfl
    | rgb r =>
      simp only [imgMax] at hmax
      simp only [to_qimage, if_neg (not_lt.mpr hmax)]
      simp only [qimgColorZero, List.all_eq_true]
      intro row hrow v hv
      rw [List.mem_map] at hrow
      obtain ⟨r0, _, rfl⟩ := hrow
      rw [List.mem_map] at hv
      obtain ⟨t0, _, rfl⟩ := hv
      rfl
  · intro hmax
    cases i with
    | gray g =>
      simp only [imgMax] at hmax
      simp only [to_qimage, if_pos hmax]
      simp only [qimgColorLe255, List.all_eq_true]
      intro row hrow v hv
      rw [List.mem_map] at hrow
      obtain ⟨r0, _, rfl⟩ := hrow
      rw [List.mem_map] at hv
      obtain ⟨v0, _, rfl⟩ := hv
      simpa using toU8_le_255 _
    | rgb r =>
      simp only [imgMax] at hmax
      simp only [to_qimage, if_pos hmax]
      simp only [qimgColorLe255, List.all_eq_true]
      intro row hrow v hv
      rw [List.mem_map] at hrow
      obtain ⟨r0, _, rfl⟩ := hrow
      rw [List.mem_map] at hv
      obtain ⟨t0, _, rfl⟩ := hv
      simp [toU8_le_255]

/-- C9, concrete instance: a 1×2 grayscale buffer with positive maximum,
and separately the all-zero branch exercised through the same theorem on a
buffer with maximum 0. -/
theorem to_qimage_safe_witness :
    qimgColorLe255 (to_qimage (Img.gray [[1, 3]])) = true ∧
    qimgColorZero (to_qimage (Img.gray [[0, 0]])) = true :=
  ⟨(to_qimage_safe (Img.gray [[1, 3]]) rfl).2 (by norm_num [imgMax,
      grayEntries, maxD]),
   (to_qimage_safe (Img.gray [[0, 0]]) rfl).1 (by norm_num [imgMax,
      grayEntries, maxD])⟩
/-- C3, counterexample to the claim as stated: an 8-byte buffer for a 2×2
grid at `bpp = 12`, `packed = true` truncates the buffer to `2·2·12/8 = 6`
bytes (only 3 samples, so the placeholder appears), while `packed = false`
reads all 8 bytes into the 2×2 grid of 257s — different grids from the same
buffer, so packed non-10-bit decoding is not the packed-false decoding of
the same buffer. -/
theorem packed_non10_ne_unpacked_cex :
    load_raw [1, 1, 1, 1, 1, 1, 1, 1]
        { width := 2, height := 2, bpp := 12, packed := true } ≠
      load_raw [1, 1, 1, 1, 1, 1, 1, 1]
        { width := 2, height := 2, bpp := 12, packed := false } := by
  decide

/-- C3, amended. With `packed = true` and `bpp ≠ 10` (and `bpp ≤ 16`, the
sensor range the spec fixes — §3 says bit depth ≤ 16 and the UI clamps
`bpp` to 8–16), decoding takes the unpacked little-endian 16-bit path, but
applied to the buffer truncated to `width·height·bpp/8` bytes (the
`expected_bytes` of the packed branch): it equals packed-false decoding of
that truncated buffer, not of the same buffer. -/
theorem packed_non10_truncated_unpacked (p : ISPParameters) (data : List ℕ)
    (hp : p.packed = true) (h10 : p.bpp ≠ 10) (h16 : p.bpp ≤ 16) :
    load_raw data p =
      load_raw (data.take (p.width * p.height * p.bpp / 8))
        { p with packed := false } := by
  have hle : p.width * p.height * p.bpp / 8 ≤ p.width * p.height * 2 := by
    have h1 : p.width * p.height * p.bpp ≤ p.width * p.height * 16 :=
      Nat.mul_le_mul_left _ h16
    have h2 : p.width * p.height * p.bpp / 8 ≤ p.width * p.height * 16 / 8 :=
      Nat.div_le_div_right h1
    have h3 : p.width * p.height * 16 / 8 = p.width * p.height * 2 := by
      rw [show p.width * p.height * 16 = p.width * p.height * 2 * 8 by ring]
      exact Nat.mul_div_cancel _ (by norm_num)
    omega
  unfold load_raw
  rw [hp]
  have hcond : (True ∧ p.bpp = 10) ↔ False := by simp [h10]
  simp only [hcond, Bool.false_eq_true, false_and, if_false, if_true]
  rw [List.take_take, min_eq_right hle]

/-- C3, concrete instance of the amended claim. -/
theorem packed_non10_truncated_unpacked_witness :
    load_raw [1, 1, 1, 1, 1, 1, 1, 1]
        { width := 2, height := 2, bpp := 12, packed := true } =
      load_raw ([1, 1, 1, 1, 1, 1, 1, 1].take (2 * 2 * 12 / 8))
        { width := 2, height := 2, bpp := 12, packed := false } :=
  packed_non10_truncated_unpacked
    { width := 2, height := 2, bpp := 12, packed := true }
    [1, 1, 1, 1, 1, 1, 1, 1] rfl (by norm_num) (by norm_num)
